import Mathlib

/-! Shallow embedding of `src/users.py` (class `UserManager`) of the
mega-chess repository, together with theorems settling specification
claims C1-C10 about its registration/authentication state machine.

Modelling conventions:
* The redis key-value store is an association list from `Key` to `Value`.
  The key namespace prefixes `user:`, `registration:` and `auth:` of the
  source (lines 50-57) are modelled by the three constructors of `Key`;
  the string encodings are injective and mutually disjoint, so this is
  faithful.
* JSON (de)serialisation via `ujson` is lossless for the fixed record
  shapes involved, so stored documents are modelled structurally by
  `Value` instead of by serialized strings.
* `uuid.uuid4()` and `bcrypt.gensalt()` are nondeterministic inputs; each
  operation takes the freshly drawn token/salt as an explicit argument.
* `bcrypt` and the mail collaborator are external. `bcryptHashpw` and
  `bcryptCheckpw` model the hasher interface of spec section 4.1:
  verification recomputes using the salt embedded in the stored hash, and
  a malformed stored hash makes `bcrypt.checkpw` raise an untyped
  `ValueError`, modelled as `PyExn.valueError`. Outbound mail
  (`emails.send_simple_message`) is recorded as a `send` event.
* Every operation returns its Python result (`Except PyExn`) together
  with the store after the call and the ordered trace of collaborator
  calls (`Ev`) it performed; a raised exception keeps the writes already
  performed, as in Python.
-/

namespace Megachess

/-- Exceptions of `src/users.py` (lines 11-39) plus `valueError`, the
untyped `ValueError` that `bcrypt.checkpw` raises on a malformed stored
hash (a crash: not a `UserException` subclass of the module).
`invalidAuthLogin` plays the `AuthFailure` role of the spec. -/
inductive PyExn
  | userAlreadyExists
  | invalidAuthLogin
  | invalidAuthToken
  | invalidRegistrationToken
  | invalidRegistrationUsername
  | invalidRegistrationEmail
  | valueError
deriving DecidableEq

deriving instance DecidableEq for Except

/-- Serialized User document, `src/users.py` lines 63-68. -/
structure UserRec where
  username : String
  email : String
  password : String
  auth_token : String
deriving DecidableEq

/-- Serialized PendingRegistration document, `src/users.py` lines 93-97. -/
structure RegRec where
  username : String
  email : String
  password : String
deriving DecidableEq

/-- Values held by the store: a raw string (under `auth:` keys), a User
document or a PendingRegistration document. -/
inductive Value
  | str (s : String)
  | user (u : UserRec)
  | reg (r : RegRec)
deriving DecidableEq

/-- Key namespaces of `src/users.py` lines 50-57. -/
inductive Key
  | user (username : String)
  | registration (token : String)
  | auth (token : String)
deriving DecidableEq

/-- Key builder of `_user_id` (line 50): `user:<username>`. -/
abbrev user_id (username : String) : Key := Key.user username

/-- Key builder of `_registration_id` (line 53): `registration:<token>`. -/
abbrev registration_id (registration_token : String) : Key :=
  Key.registration registration_token

/-- Key builder of `_token_id` (line 56): `auth:<auth_token>`. -/
abbrev token_id (auth_token : String) : Key := Key.auth auth_token

/-- The redis store, as an association list (first binding wins). -/
abbrev Store := List (Key × Value)

/-- Empty store. -/
def storeEmpty : Store := []

/-- Redis DEL: remove every binding of a key. -/
def storeDel : Store → Key → Store
  | [], _ => []
  | (k, v) :: rest, k2 =>
    if k = k2 then storeDel rest k2 else (k, v) :: storeDel rest k2

/-- Redis SET: bind a key to a value (replacing any previous binding). -/
def storeSet (st : Store) (k : Key) (v : Value) : Store :=
  (k, v) :: storeDel st k

/-- Redis GET: first binding of a key, if any. -/
def storeGet : Store → Key → Option Value
  | [], _ => none
  | (k, v) :: rest, k2 => if k = k2 then some v else storeGet rest k2

/-- Collaborator-call events, in the order the code issues them.
`setex` is `set(..., ex=timedelta(days=<ttl>))`; `send` is
`emails.send_simple_message(address, subject, body)`. -/
inductive Ev
  | get (k : Key)
  | setv (k : Key) (v : Value)
  | setex (k : Key) (v : Value) (ttlDays : Nat)
  | existsKey (k : Key)
  | del (k : Key)
  | send (address subject body : String)
deriving DecidableEq

/-- Event is a store write (`set`, `set ex=...` or `delete`). -/
def writeEv : Ev → Bool
  | .setv _ _ => true
  | .setex _ _ _ => true
  | .del _ => true
  | _ => false

/-- Process-wide configuration read by `register`: the env vars
`AUTO_REGISTER_TOKEN` (absent when unset) and `DOMAIN_URL`. -/
structure Config where
  autoRegisterToken : Option String
  domainUrl : String

/-- Python `str.isalpha`: non-empty and every character alphabetic
(alphabetic is modelled by `Char.isAlpha`). -/
def pyIsAlpha (s : String) : Bool :=
  !s.toList.isEmpty && s.toList.all Char.isAlpha

/-- Python truthiness of a redis GET result (`None` and empty strings are
falsy; the serialized documents are non-empty strings, hence truthy). -/
def pyTruthy : Option Value → Bool
  | none => false
  | some (.str s) => !s.isEmpty
  | some _ => true

/-- List-of-chars prefix test used by `substrL`. -/
def startsWithL : List Char → List Char → Bool
  | [], _ => true
  | _ :: _, [] => false
  | n :: ns, h :: hs => n == h && startsWithL ns hs

/-- Contiguous-sublist test over characters. -/
def substrL (needle : List Char) : List Char → Bool
  | [] => needle.isEmpty
  | h :: t => startsWithL needle (h :: t) || substrL needle t

/-- Python `needle in hay` on strings: contiguous substring test. -/
def pyInStr (needle hay : String) : Bool :=
  substrL needle.toList hay.toList

/-- Matcher helper: does the list start with a character other than `@`?
(used for the final `[^@]+` of the email pattern, which only needs one
character because `re.match` is a prefix match). -/
def headNonAt : List Char → Bool
  | [] => false
  | d :: _ => if d = '@' then false else true

/-- Matcher helper for the `[^@]+\.[^@]+` suffix of the email pattern
after its first mandatory `[^@]` character: scan for a `.` that is
preceded only by non-`@` characters and followed by a non-`@` character. -/
def hasDotThen : List Char → Bool
  | [] => false
  | a :: l =>
    if a = '@' then false
    else if a = '.' then headNonAt l || hasDotThen l
    else hasDotThen l

/-- Matcher for `[^@]+\.[^@]+` applied right after the `@`. -/
def tailOk : List Char → Bool
  | [] => false
  | a :: l => if a = '@' then false else hasDotThen l

/-- Matcher helper consuming the rest of the leading `[^@]+` up to the
first `@`, then requiring `tailOk` after it. -/
def afterFirst : List Char → Bool
  | [] => false
  | a :: l => if a = '@' then tailOk l else afterFirst l

/-- Python `re.match(r"[^@]+@[^@]+\.[^@]+", email)` truthiness
(`src/users.py` line 118): an (unanchored-at-the-end) prefix of `email`
matches the pattern. The `[^@]+` pieces cannot contain `@`, so the
`@` of the pattern is necessarily the first `@` of the email; the dot
of the pattern may be any later dot reachable through non-`@`
characters. -/
def emailMatch (email : String) : Bool :=
  match email.toList with
  | [] => false
  | a :: l => if a = '@' then false else afterFirst l

/-- Hasher model (spec section 4.1; `bcrypt.hashpw` at lines 84-87):
deterministic in the explicitly passed salt. -/
def bcryptHashpw (password salt : String) : String :=
  "$2b$" ++ salt ++ "$" ++ password

/-- Helper splitting a character list at its first `$` (the boundary
between the embedded salt and the digest of a stored hash). -/
def splitSalt : List Char → Option (List Char × List Char)
  | [] => none
  | '$' :: t => some ([], t)
  | c :: t =>
    match splitSalt t with
    | some (s, d) => some (c :: s, d)
    | none => none

/-- Hasher verification model (spec section 4.1; `bcrypt.checkpw` at
lines 108-112): recomputes from the salt embedded in the stored hash and
compares; a malformed stored hash (wrong prefix or missing salt
delimiter) raises `ValueError` - its only error condition. -/
def bcryptCheckpw (password hashOutput : String) : Except PyExn Bool :=
  match hashOutput.toList with
  | '$' :: '2' :: 'b' :: '$' :: rest =>
    match splitSalt rest with
    | some (_salt, digest) => .ok (digest == password.toList)
    | none => .error .valueError
  | _ => .error .valueError

/-- Notification subject of `_save_user` (line 73). -/
def confirmedSubject : String := "Your account in Megachess is confirmed!!!"

/-- Notification body of `_save_user` (lines 74-77). -/
def confirmedBody (username auth_token : String) : String :=
  "<p>This is your personal auth_token to play for username " ++ username ++
    "</p><p><strong>" ++ auth_token ++ "</strong></p>"

/-- Notification subject of `register` (line 137). -/
def welcomeSubject : String := "Welcome to Megachess!!"

/-- Notification body of `register` (lines 138-141): the confirmation
link embedding the registration token. -/
def welcomeBody (cfg : Config) (registration_token : String) : String :=
  "<p>Please confirm your email account</p><a href=\"" ++ cfg.domainUrl ++
    "/confirm_registration?token=" ++ registration_token ++
    "\">CONFIRM YOUR REGISTRATION</a>"

/-- Embedding of `UserManager._save_user` (lines 59-82): writes the User
document, writes the `auth:` mapping, sends the token-delivery mail, and
returns the fresh auth token. -/
def save_user (st : Store) (username hash_password email auth_token : String) :
    Store × List Ev × String :=
  let uval := Value.user ⟨username, email, hash_password, auth_token⟩
  (storeSet (storeSet st (user_id username) uval) (token_id auth_token)
      (Value.str username),
   [Ev.setv (user_id username) uval,
    Ev.setv (token_id auth_token) (Value.str username),
    Ev.send email confirmedSubject (confirmedBody username auth_token)],
   auth_token)

/-- Embedding of `UserManager._save_registration` (lines 89-106): writes
the PendingRegistration document with a 1-day expiry and returns the
fresh registration token. -/
def save_registration
    (st : Store) (username hash_password email registration_token : String) :
    Store × List Ev × String :=
  let rval := Value.reg ⟨username, email, hash_password⟩
  (storeSet st (registration_id registration_token) rval,
   [Ev.setex (registration_id registration_token) rval 1],
   registration_token)

/-- Embedding of `UserManager.validate_registration` (lines 114-122):
username alphabetic check, then email shape check, then a `get` on the
`user:` key whose truthiness means the user already exists. Returns the
result together with the trace of store reads performed. -/
def validate_registration (st : Store) (username email : String) :
    Except PyExn Unit × List Ev :=
  if pyIsAlpha username = false then (.error .invalidRegistrationUsername, [])
  else if emailMatch email = false then (.error .invalidRegistrationEmail, [])
  else if pyTruthy (storeGet st (user_id username)) then
    (.error .userAlreadyExists, [Ev.get (user_id username)])
  else (.ok (), [Ev.get (user_id username)])

/-- Embedding of line 129,
`auto = auto_hash == os.getenv(AUTO_REGISTER_TOKEN) if auto_hash else False`:
falsy (absent or empty) `auto_hash` gives `False`; otherwise the string
is compared against the env var (`False` when the env var is unset). -/
def autoFlag (cfg : Config) (auto_hash : Option String) : Bool :=
  match auto_hash with
  | none => false
  | some h =>
    if h = "" then false
    else match cfg.autoRegisterToken with
      | none => false
      | some s => h == s

/-- Embedding of `UserManager.register` (lines 124-143). `salt`,
`reg_token` and `auth_token` are the nondeterministic draws of
`bcrypt.gensalt()` and `uuid.uuid4()` (at most two of them are used on
any path). -/
def register (cfg : Config) (st : Store) (username password email : String)
    (auto_hash : Option String) (salt reg_token auth_token : String) :
    Except PyExn Unit × Store × List Ev :=
  match validate_registration st username email with
  | (.error e, evs) => (.error e, st, evs)
  | (.ok _, evs) =>
    let hash_password := bcryptHashpw password salt
    if autoFlag cfg auto_hash then
      let su := save_user st username hash_password email auth_token
      (.ok (), su.1, evs ++ su.2.1)
    else
      let sr := save_registration st username hash_password email reg_token
      (.ok (), sr.1,
       evs ++ sr.2.1 ++ [Ev.send email welcomeSubject (welcomeBody cfg reg_token)])

/-- Embedding of `UserManager.confirm_registration` (lines 145-156): a
separate `exists` check (raising `InvalidRegistrationToken` when absent),
then `get`, then an unconditional `delete` whose return value is unused,
then `_save_user` from the fields of the document. A stored value that is not
a JSON object with the three expected fields makes `ujson.loads`/the
field accesses raise, modelled as `valueError`; a User-shaped document
also carries the three fields, so it is consumed like a registration. -/
def confirm_registration (st : Store) (registration_token auth_token : String) :
    Except PyExn Unit × Store × List Ev :=
  let rid := registration_id registration_token
  match storeGet st rid with
  | none => (.error .invalidRegistrationToken, st, [Ev.existsKey rid])
  | some v =>
    let st1 := storeDel st rid
    let evs := [Ev.existsKey rid, Ev.get rid, Ev.del rid]
    match v with
    | Value.reg r =>
      let su := save_user st1 r.username r.password r.email auth_token
      (.ok (), su.1, evs ++ su.2.1)
    | Value.user u =>
      let su := save_user st1 u.username u.password u.email auth_token
      (.ok (), su.1, evs ++ su.2.1)
    | Value.str _ => (.error .valueError, st1, evs)

/-- Embedding of `UserManager.get_user_by_username` (lines 170-177):
`exists` check, `get`, then the defensive check
`if username not in user[username_field]` - a Python substring test. -/
def get_user_by_username (st : Store) (username : String) :
    Except PyExn UserRec × List Ev :=
  let uid := user_id username
  match storeGet st uid with
  | none => (.error .invalidAuthLogin, [Ev.existsKey uid])
  | some v =>
    match v with
    | Value.user u =>
      if pyInStr username u.username then
        (.ok u, [Ev.existsKey uid, Ev.get uid])
      else (.error .invalidAuthLogin, [Ev.existsKey uid, Ev.get uid])
    | _ => (.error .valueError, [Ev.existsKey uid, Ev.get uid])

/-- Embedding of `UserManager.get_auth_token` (lines 158-163): looks the
user up, verifies the password (any hasher error propagates uncaught),
and returns the stored auth token. The store is returned unchanged
together with the trace of collaborator calls. -/
def get_auth_token (st : Store) (username password : String) :
    Except PyExn String × Store × List Ev :=
  match get_user_by_username st username with
  | (.error e, evs) => (.error e, st, evs)
  | (.ok u, evs) =>
    match bcryptCheckpw password u.password with
    | .error e => (.error e, st, evs)
    | .ok b =>
      if b then (.ok u.auth_token, st, evs)
      else (.error .invalidAuthLogin, st, evs)

/-- Store states reachable from the empty store by sequences of
`register` and `confirm_registration` calls with arbitrary inputs and
arbitrary nondeterministic draws. -/
inductive Reachable (cfg : Config) : Store → Prop
  | empty : Reachable cfg []
  | reg (st : Store) (username password email : String)
      (auto_hash : Option String) (salt reg_token auth_token : String)
      (h : Reachable cfg st) :
      Reachable cfg
        (register cfg st username password email auto_hash salt reg_token
          auth_token).2.1
  | conf (st : Store) (registration_token auth_token : String)
      (h : Reachable cfg st) :
      Reachable cfg (confirm_registration st registration_token auth_token).2.1

/-- Property of a character list: no `@` occurs in it. -/
def NoAt (l : List Char) : Prop := ∀ c ∈ l, c ≠ '@'

/-- Decomposition as a (possibly empty) `@`-free block, a dot, and a
non-`@` character. -/
def DotShape (l : List Char) : Prop :=
  ∃ b c t, l = b ++ '.' :: c :: t ∧ NoAt b ∧ c ≠ '@'

/-- Decomposition as a non-empty `@`-free block, a dot, and a non-`@`
character; this is what `[^@]+\.[^@]+` matches as a prefix. -/
def TailShape (l : List Char) : Prop :=
  ∃ b c t, l = b ++ '.' :: c :: t ∧ b ≠ [] ∧ NoAt b ∧ c ≠ '@'

/-- Decomposition matched by the email check of the code: a non-empty `@`-free
local part, `@`, a non-empty `@`-free block, a dot, one non-`@`
character, then arbitrary trailing characters (the regex is applied by
`re.match` as a prefix match). -/
def EmailShape (l : List Char) : Prop :=
  ∃ a r, l = a ++ '@' :: r ∧ a ≠ [] ∧ NoAt a ∧ TailShape r

/-- Decomposition described by the words of the spec for claim C4: at least
one non-`@` character, an `@`, at least one non-`@` character, a literal
dot, and at least one trailing character. This definition follows the
words of the spec (trailing characters unconstrained), to be compared
with the check in the code. -/
def EmailShapeSpec (l : List Char) : Prop :=
  ∃ a b t, l = a ++ '@' :: (b ++ '.' :: t) ∧ a ≠ [] ∧ b ≠ [] ∧ t ≠ [] ∧
    NoAt a ∧ NoAt b

/-- The `auth_token` of every stored User document has a binding under the
`auth:` namespace. -/
def AuthInv (st : Store) : Prop :=
  ∀ u rec, storeGet st (user_id u) = some (Value.user rec) →
    (storeGet st (token_id rec.auth_token)).isSome = true

/-- Helper for the C2 counterexample: does a stored value carry the given
auth token inside a User document? -/
def userTokenIs : Value → String → Bool
  | .user r, t => r.auth_token == t
  | _, _ => false

/-- Configuration with auto-registration disabled (env var unset). -/
def cfgC : Config := ⟨none, "http://mc"⟩

/-- Configuration with a non-empty auto-registration secret. -/
def cfgW : Config := ⟨some "sec", "http://mc"⟩

/-- Configuration whose auto-registration env var is set to the empty
string. -/
def cfg6 : Config := ⟨some "", "http://mc"⟩

/-- Reachable state: `alice` registered once (pending `rtOne`). -/
def stA1 : Store :=
  (register cfgC storeEmpty "alice" "pw" "a@b.c" none "s1" "rtOne" "x1").2.1

/-- Reachable state: `alice` registered twice (pendings `rtOne`, `rtTwo`);
the duplicate passes validation because no User record exists yet. -/
def stA2 : Store :=
  (register cfgC stA1 "alice" "pw" "a@b.c" none "s2" "rtTwo" "x2").2.1

/-- Reachable state: first pending confirmed with auth token `tokA`. -/
def stA3 : Store := (confirm_registration stA2 "rtOne" "tokA").2.1

/-- Reachable state: second pending confirmed with auth token `tokB`,
overwriting the `alice` User record. -/
def stA4 : Store := (confirm_registration stA3 "rtTwo" "tokB").2.1

/-- Store holding one pending registration under token `rt`. -/
def stP : Store := [(registration_id "rt", Value.reg ⟨"alice", "a@b.c", "h"⟩)]

/-- Auto-registered state under `cfgW` (used as a concrete reachable
state with a User record). -/
def stW : Store :=
  (register cfgW storeEmpty "bob" "pw" "b@e.c" (some "sec") "sw" "rw" "tkw").2.1

/-- Store whose `user:alice` document carries username `malice` (the
lookup key `alice` is a proper substring of it). -/
def stC3 : Store := [(user_id "alice", Value.user ⟨"malice", "m@e.c", "h", "tok"⟩)]

/-- Store whose `user:bob` document carries the unrelated username
`alice`. -/
def stW3 : Store := [(user_id "bob", Value.user ⟨"alice", "e", "h", "t"⟩)]

/-- Store whose `user:alice` document holds a malformed password hash. -/
def stC5 : Store :=
  [(user_id "alice", Value.user ⟨"alice", "a@b.c", "nothash", "tok"⟩)]

/-- Store holding `alice` with a well-formed hash of password `right`. -/
def stW9 : Store :=
  [(user_id "alice", Value.user ⟨"alice", "a@b.c", bcryptHashpw "right" "ss", "tok9"⟩)]

/-! Store lemmas. -/

theorem storeGet_storeDel_self (st : Store) (k : Key) :
    storeGet (storeDel st k) k = none := by
  induction st with
  | nil => rfl
  | cons p rest ih =>
    obtain ⟨k0, v0⟩ := p
    by_cases h : k0 = k
    · simpa [storeDel, h] using ih
    · simp [storeDel, storeGet, h, ih]

theorem storeGet_storeDel_ne (st : Store) (k k2 : Key)
    (h : k ≠ k2) : storeGet (storeDel st k2) k = storeGet st k := by
  induction st with
  | nil => rfl
  | cons p rest ih =>
    obtain ⟨k0, v0⟩ := p
    by_cases h0 : k0 = k2
    · subst h0
      have hk0 : k0 ≠ k := fun hh => h hh.symm
      simp [storeDel, storeGet, hk0, ih]
    · simp [storeDel, storeGet, h0, ih]

theorem storeGet_storeSet_self (st : Store) (k : Key) (v : Value) :
    storeGet (storeSet st k v) k = some v := by
  simp [storeSet, storeGet]

theorem storeGet_storeSet_ne (st : Store) (k k2 : Key) (v : Value)
    (h : k ≠ k2) : storeGet (storeSet st k2 v) k = storeGet st k := by
  have h2 : k2 ≠ k := fun hk => h hk.symm
  simp [storeSet, storeGet, h2, storeGet_storeDel_ne st k k2 h]

theorem isSome_storeGet_storeSet (st : Store) (k k2 : Key) (v : Value)
    (h : (storeGet st k).isSome = true) :
    (storeGet (storeSet st k2 v) k).isSome = true := by
  by_cases hk : k = k2
  · subst hk; simp [storeGet_storeSet_self]
  · rw [storeGet_storeSet_ne st k k2 v hk]; exact h

theorem storeGet_mem (st : Store) (k : Key) (v : Value)
    (h : storeGet st k = some v) : (k, v) ∈ st := by
  induction st with
  | nil => simp [storeGet] at h
  | cons p rest ih =>
    obtain ⟨k0, v0⟩ := p
    by_cases h0 : k0 = k
    · subst h0
      simp only [storeGet, if_true, eq_self_iff_true, if_pos,
        Option.some.injEq] at h
      rw [← h]; exact List.mem_cons_self _ _
    · simp only [storeGet, if_neg h0] at h
      exact List.mem_cons_of_mem _ (ih h)

/-! Key-constructor disjointness. -/

theorem key_user_ne_auth (a b : String) : Key.user a ≠ Key.auth b :=
  fun h => nomatch h

theorem key_user_ne_registration (a b : String) :
    Key.user a ≠ Key.registration b :=
  fun h => nomatch h

theorem key_registration_ne_user (a b : String) :
    Key.registration a ≠ Key.user b :=
  fun h => nomatch h

theorem key_registration_ne_auth (a b : String) :
    Key.registration a ≠ Key.auth b :=
  fun h => nomatch h

theorem key_auth_ne_user (a b : String) : Key.auth a ≠ Key.user b :=
  fun h => nomatch h

/-! Characterisation of the email matcher. -/

theorem noAt_cons (c : Char) (l : List Char) :
    NoAt (c :: l) ↔ c ≠ '@' ∧ NoAt l := by
  simp [NoAt]

theorem noAt_nil : NoAt [] := by simp [NoAt]

theorem headNonAt_iff (l : List Char) :
    headNonAt l = true ↔ ∃ c t, l = c :: t ∧ c ≠ '@' := by
  cases l with
  | nil =>
    simp only [headNonAt, Bool.false_eq_true, false_iff]
    rintro ⟨c, t, h, _⟩
    exact List.noConfusion h
  | cons c t =>
    by_cases hc : c = '@'
    · subst hc
      simp only [headNonAt, if_pos rfl, if_true, Bool.false_eq_true, false_iff]
      rintro ⟨d, t2, h, hd⟩
      injection h with h1 _
      exact hd h1.symm
    · simp only [headNonAt, if_neg hc, true_iff]
      exact ⟨c, t, rfl, hc⟩

theorem hasDotThen_iff (l : List Char) : hasDotThen l = true ↔ DotShape l := by
  induction l with
  | nil =>
    simp only [hasDotThen, Bool.false_eq_true, false_iff]
    rintro ⟨b, c, t, h, _, _⟩
    simp at h
  | cons a l ih =>
    by_cases ha : a = '@'
    · subst ha
      simp only [hasDotThen, if_pos rfl, if_true, Bool.false_eq_true, false_iff]
      rintro ⟨b, c, t, h, hb, hc⟩
      cases b with
      | nil =>
        simp only [List.nil_append] at h
        injection h with h1 _
        exact absurd h1 (by decide)
      | cons b0 bs =>
        injection h with h1 _
        exact hb b0 (List.mem_cons_self _ _) h1.symm
    · by_cases hd : a = '.'
      · subst hd
        simp only [hasDotThen, if_neg ha, if_pos rfl, if_true, Bool.or_eq_true]
        rw [headNonAt_iff, ih]
        constructor
        · rintro (⟨c, t, h, hc⟩ | ⟨b, c, t, h, hb, hc⟩)
          · exact ⟨[], c, t, by simp [h], noAt_nil, hc⟩
          · refine ⟨'.' :: b, c, t, by simp [h], ?_, hc⟩
            exact (noAt_cons _ _).mpr ⟨by decide, hb⟩
        · rintro ⟨b, c, t, h, hb, hc⟩
          cases b with
          | nil =>
            left
            injection h with _ h2
            exact ⟨c, t, h2, hc⟩
          | cons b0 bs =>
            right
            injection h with _ h2
            exact ⟨bs, c, t, h2, ((noAt_cons _ _).mp hb).2, hc⟩
      · simp only [hasDotThen, if_neg ha, if_neg hd]
        rw [ih]
        constructor
        · rintro ⟨b, c, t, h, hb, hc⟩
          exact ⟨a :: b, c, t, by simp [h], (noAt_cons _ _).mpr ⟨ha, hb⟩, hc⟩
        · rintro ⟨b, c, t, h, hb, hc⟩
          cases b with
          | nil =>
            injection h with h1 _
            exact absurd h1 hd
          | cons b0 bs =>
            injection h with _ h2
            exact ⟨bs, c, t, h2, ((noAt_cons _ _).mp hb).2, hc⟩

theorem tailOk_iff (l : List Char) : tailOk l = true ↔ TailShape l := by
  cases l with
  | nil =>
    simp only [tailOk, Bool.false_eq_true, false_iff]
    rintro ⟨b, c, t, h, _, _, _⟩
    simp at h
  | cons a l =>
    by_cases ha : a = '@'
    · subst ha
      simp only [tailOk, if_pos rfl, if_true, Bool.false_eq_true, false_iff]
      rintro ⟨b, c, t, h, hbne, hb, hc⟩
      cases b with
      | nil => exact hbne rfl
      | cons b0 bs =>
        injection h with h1 _
        exact hb b0 (List.mem_cons_self _ _) h1.symm
    · simp only [tailOk, if_neg ha]
      rw [hasDotThen_iff]
      constructor
      · rintro ⟨b, c, t, h, hb, hc⟩
        exact ⟨a :: b, c, t, by simp [h], List.cons_ne_nil _ _,
          (noAt_cons _ _).mpr ⟨ha, hb⟩, hc⟩
      · rintro ⟨b, c, t, h, hbne, hb, hc⟩
        cases b with
        | nil => exact absurd rfl hbne
        | cons b0 bs =>
          injection h with _ h2
          exact ⟨bs, c, t, h2, ((noAt_cons _ _).mp hb).2, hc⟩

theorem afterFirst_iff (l : List Char) :
    afterFirst l = true ↔
      ∃ a r, l = a ++ '@' :: r ∧ NoAt a ∧ tailOk r = true := by
  induction l with
  | nil =>
    simp only [afterFirst, Bool.false_eq_true, false_iff]
    rintro ⟨a, r, h, _, _⟩
    simp at h
  | cons x l ih =>
    by_cases hx : x = '@'
    · subst hx
      simp only [afterFirst, if_pos rfl, if_true]
      constructor
      · intro h
        exact ⟨[], l, rfl, noAt_nil, h⟩
      · rintro ⟨a, r, h, ha, hr⟩
        cases a with
        | nil =>
          injection h with _ h2
          rw [h2]; exact hr
        | cons a0 as =>
          injection h with h1 _
          exact absurd h1.symm (ha a0 (List.mem_cons_self _ _))
    · simp only [afterFirst, if_neg hx]
      rw [ih]
      constructor
      · rintro ⟨a, r, h, ha, hr⟩
        exact ⟨x :: a, r, by simp [h], (noAt_cons _ _).mpr ⟨hx, ha⟩, hr⟩
      · rintro ⟨a, r, h, ha, hr⟩
        cases a with
        | nil =>
          injection h with h1 _
          exact absurd h1 hx
        | cons a0 as =>
          injection h with _ h2
          exact ⟨as, r, h2, ((noAt_cons _ _).mp ha).2, hr⟩

theorem emailMatch_iff_emailShape (s : String) :
    emailMatch s = true ↔ EmailShape s.toList := by
  rcases hsl : s.toList with _ | ⟨a, l⟩
  · simp only [emailMatch, hsl, Bool.false_eq_true, false_iff]
    rintro ⟨a, r, h, _, _, _⟩
    simp at h
  · simp only [emailMatch, hsl]
    by_cases ha : a = '@'
    · subst ha
      simp only [if_pos rfl, if_true, Bool.false_eq_true, false_iff]
      rintro ⟨a2, r, h, hne, ha2, _⟩
      cases a2 with
      | nil => exact hne rfl
      | cons a0 as =>
        injection h with h1 _
        exact ha2 a0 (List.mem_cons_self _ _) h1.symm
    · simp only [if_neg ha]
      rw [afterFirst_iff]
      constructor
      · rintro ⟨a2, r, h, ha2, hr⟩
        exact ⟨a :: a2, r, by simp [h], List.cons_ne_nil _ _,
          (noAt_cons _ _).mpr ⟨ha, ha2⟩, (tailOk_iff r).mp hr⟩
      · rintro ⟨a2, r, h, hne, ha2, hts⟩
        cases a2 with
        | nil => exact absurd rfl hne
        | cons a0 as =>
          injection h with _ h2
          exact ⟨as, r, h2, ((noAt_cons _ _).mp ha2).2, (tailOk_iff r).mpr hts⟩

/-! Shape lemmas for `validate_registration` and the write-paths of
`register` and `confirm_registration`. -/

theorem validate_registration_ok_pair (st : Store) (u e : String)
    (h : (validate_registration st u e).1 = .ok ()) :
    validate_registration st u e = (.ok (), [Ev.get (user_id u)]) := by
  unfold validate_registration at h ⊢
  split_ifs at h ⊢
  all_goals simp_all

theorem save_registration_fst (st : Store) (u hp em rt : String) :
    (save_registration st u hp em rt).1 =
      storeSet st (registration_id rt) (Value.reg ⟨u, em, hp⟩) := rfl

theorem save_user_fst (st : Store) (u hp em tk : String) :
    (save_user st u hp em tk).1 =
      storeSet (storeSet st (user_id u) (Value.user ⟨u, em, hp, tk⟩))
        (token_id tk) (Value.str u) := rfl

theorem register_store_cases (cfg : Config) (st : Store)
    (u p e : String) (ah : Option String) (s rt tk : String) :
    (register cfg st u p e ah s rt tk).2.1 = st ∨
    (register cfg st u p e ah s rt tk).2.1 =
      (save_user st u (bcryptHashpw p s) e tk).1 ∨
    (register cfg st u p e ah s rt tk).2.1 =
      (save_registration st u (bcryptHashpw p s) e rt).1 := by
  unfold register
  rcases hv : validate_registration st u e with ⟨res, evs⟩
  cases res with
  | error err => left; rfl
  | ok r0 =>
    by_cases hauto : autoFlag cfg ah
    · right; left; simp [hauto]
    · right; right; simp [hauto]

theorem confirm_store_cases (st : Store) (rt tk : String) :
    (confirm_registration st rt tk).2.1 = st ∨
    (confirm_registration st rt tk).2.1 = storeDel st (registration_id rt) ∨
    ∃ u hp em, (confirm_registration st rt tk).2.1 =
      (save_user (storeDel st (registration_id rt)) u hp em tk).1 := by
  rcases hg : storeGet st (registration_id rt) with _ | v
  · left; simp [confirm_registration, hg]
  · cases v with
    | str s => right; left; simp [confirm_registration, hg]
    | user u2 =>
      right; right
      exact ⟨u2.username, u2.password, u2.email, by simp [confirm_registration, hg]⟩
    | reg r =>
      right; right
      exact ⟨r.username, r.password, r.email, by simp [confirm_registration, hg]⟩

/-! Invariant machinery for claim C2: the auth token of every User document
has an `auth:` mapping. -/

theorem authInv_storeSet_registration (st : Store) (rt : String) (v : Value)
    (inv : AuthInv st) : AuthInv (storeSet st (registration_id rt) v) := by
  intro u rec hget
  rw [storeGet_storeSet_ne st (user_id u) (registration_id rt) v
    (key_user_ne_registration u rt)] at hget
  rw [storeGet_storeSet_ne st (token_id rec.auth_token) (registration_id rt) v
    (fun h => nomatch h)]
  exact inv u rec hget

theorem authInv_storeDel_registration (st : Store) (rt : String)
    (inv : AuthInv st) : AuthInv (storeDel st (registration_id rt)) := by
  intro u rec hget
  rw [storeGet_storeDel_ne st (user_id u) (registration_id rt)
    (key_user_ne_registration u rt)] at hget
  rw [storeGet_storeDel_ne st (token_id rec.auth_token) (registration_id rt)
    (fun h => nomatch h)]
  exact inv u rec hget

theorem authInv_save_user (st : Store) (u hp em tk : String)
    (inv : AuthInv st) : AuthInv (save_user st u hp em tk).1 := by
  intro u2 rec hget
  rw [save_user_fst] at hget ⊢
  rw [storeGet_storeSet_ne _ (user_id u2) (token_id tk) _
    (key_user_ne_auth u2 tk)] at hget
  by_cases hu : u2 = u
  · subst hu
    rw [storeGet_storeSet_self] at hget
    have hrec : rec = ⟨u2, em, hp, tk⟩ := by
      injection hget with h1
      injection h1 with h2
      exact h2.symm
    subst hrec
    simp only []
    rw [storeGet_storeSet_self]
    rfl
  · rw [storeGet_storeSet_ne _ (user_id u2) (user_id u) _
      (fun h => hu (Key.user.inj h))] at hget
    have h1 := inv u2 rec hget
    exact isSome_storeGet_storeSet _ _ _ _
      (isSome_storeGet_storeSet _ _ _ _ h1)

theorem authInv_reachable (cfg : Config) (st : Store) (h : Reachable cfg st) :
    AuthInv st := by
  induction h with
  | empty => intro u rec hget; simp [storeGet] at hget
  | reg st u p e ah s rt tk hst ih =>
    rcases register_store_cases cfg st u p e ah s rt tk with h1 | h1 | h1
    · rw [h1]; exact ih
    · rw [h1]; exact authInv_save_user st u (bcryptHashpw p s) e tk ih
    · rw [h1, save_registration_fst]
      exact authInv_storeSet_registration st rt _ ih
  | conf st rt tk hst ih =>
    rcases confirm_store_cases st rt tk with h1 | h1 | ⟨u2, hp, em, h1⟩
    · rw [h1]; exact ih
    · rw [h1]; exact authInv_storeDel_registration st rt ih
    · rw [h1]
      exact authInv_save_user _ u2 hp em tk (authInv_storeDel_registration st rt ih)

/-! Claim theorems. -/

/-- C1 (counterexample): `confirm_registration` is not implemented via an
atomic delete-and-check. On an absent token the failure is decided by a
standalone `exists` read and no delete is ever issued; on a present token
the trace is a separate existence check followed by `get` and an
unconditional `delete` whose return value is unused. -/
theorem confirm_registration_exists_check_cex :
    (confirm_registration storeEmpty "rt" "tk").1 =
      .error .invalidRegistrationToken ∧
    (confirm_registration storeEmpty "rt" "tk").2.2 =
      [Ev.existsKey (registration_id "rt")] ∧
    (confirm_registration stP "rt" "tk").2.2 =
      [Ev.existsKey (registration_id "rt"), Ev.get (registration_id "rt"),
       Ev.del (registration_id "rt"),
       Ev.setv (user_id "alice") (Value.user ⟨"alice", "a@b.c", "h", "tk"⟩),
       Ev.setv (token_id "tk") (Value.str "alice"),
       Ev.send "a@b.c" confirmedSubject (confirmedBody "alice" "tk")] :=
  ⟨rfl, rfl, rfl⟩

/-- C1 (amended): under sequential execution the registration token is
single-use: once `confirm_registration` succeeds for a token, an
immediately subsequent `confirm_registration` with the same token fails
with `InvalidRegistrationToken`. (The implementation mechanism, however,
is a separate existence check, `get` and unconditional `delete`, not an
atomic delete-and-check.) -/
theorem confirm_registration_single_use (st : Store) (rt tk tk2 : String)
    (h : (confirm_registration st rt tk).1 = .ok ()) :
    (confirm_registration (confirm_registration st rt tk).2.1 rt tk2).1 =
      .error .invalidRegistrationToken := by
  rcases hg : storeGet st (registration_id rt) with _ | v
  · simp [confirm_registration, hg] at h
  · cases v with
    | str s => simp [confirm_registration, hg] at h
    | reg r =>
      have h2 : (confirm_registration st rt tk).2.1 =
          (save_user (storeDel st (registration_id rt))
            r.username r.password r.email tk).1 := by
        simp [confirm_registration, hg]
      have h3 : storeGet (save_user (storeDel st (registration_id rt))
          r.username r.password r.email tk).1 (registration_id rt) = none := by
        rw [save_user_fst,
          storeGet_storeSet_ne _ (registration_id rt) (token_id tk) _
            (fun hh => nomatch hh),
          storeGet_storeSet_ne _ (registration_id rt) (user_id r.username) _
            (fun hh => nomatch hh)]
        exact storeGet_storeDel_self st (registration_id rt)
      rw [h2]
      simp [confirm_registration, h3]
    | user u2 =>
      have h2 : (confirm_registration st rt tk).2.1 =
          (save_user (storeDel st (registration_id rt))
            u2.username u2.password u2.email tk).1 := by
        simp [confirm_registration, hg]
      have h3 : storeGet (save_user (storeDel st (registration_id rt))
          u2.username u2.password u2.email tk).1 (registration_id rt) = none := by
        rw [save_user_fst,
          storeGet_storeSet_ne _ (registration_id rt) (token_id tk) _
            (fun hh => nomatch hh),
          storeGet_storeSet_ne _ (registration_id rt) (user_id u2.username) _
            (fun hh => nomatch hh)]
        exact storeGet_storeDel_self st (registration_id rt)
      rw [h2]
      simp [confirm_registration, h3]

/-- C1 (witness): double confirmation of the concrete pending store. -/
theorem confirm_registration_single_use_witness :
    (confirm_registration (confirm_registration stP "rt" "tokA").2.1
      "rt" "tokB").1 = .error .invalidRegistrationToken :=
  confirm_registration_single_use stP "rt" "tokA" "tokB" rfl

/-- C2 (counterexample): a reachable store in which the `auth:tokA`
mapping exists while no stored User document carries auth token `tokA`
(register `alice` twice, then confirm both pendings: the second
`_save_user` overwrites the User record, stranding the first mapping).
This refutes the claimed if-and-only-if invariant. -/
theorem auth_mapping_stale_cex :
    Reachable cfgC stA4 ∧
    (storeGet stA4 (token_id "tokA")).isSome = true ∧
    stA4.all (fun p => !userTokenIs p.2 "tokA") = true := by
  refine ⟨?_, by decide, by decide⟩
  exact Reachable.conf stA3 "rtTwo" "tokB"
    (Reachable.conf stA2 "rtOne" "tokA"
      (Reachable.reg stA1 "alice" "pw" "a@b.c" none "s2" "rtTwo" "x2"
        (Reachable.reg storeEmpty "alice" "pw" "a@b.c" none "s1" "rtOne" "x1"
          Reachable.empty)))

/-- C2 (amended): in every reachable store state, if a User record whose
`auth_token` field equals `t` exists then the `auth:t` mapping exists
(the mapping is written together with the User record by `_save_user`,
which is the only writer of either). The converse direction of the
claimed invariant fails: see the counterexample. -/
theorem auth_mapping_exists_of_user (cfg : Config) (st : Store)
    (h : Reachable cfg st) (u : String) (rec : UserRec)
    (hu : storeGet st (user_id u) = some (Value.user rec)) :
    (storeGet st (token_id rec.auth_token)).isSome = true :=
  authInv_reachable cfg st h u rec hu

/-- C2 (witness): the auto-registered store `stW` holds user `bob` with
auth token `tkw`, and the mapping for `tkw` is present. -/
theorem auth_mapping_exists_of_user_witness :
    (storeGet stW (token_id "tkw")).isSome = true :=
  auth_mapping_exists_of_user cfgW stW
    (Reachable.reg storeEmpty "bob" "pw" "b@e.c" (some "sec") "sw" "rw" "tkw"
      Reachable.empty)
    "bob" ⟨"bob", "b@e.c", bcryptHashpw "pw" "sw", "tkw"⟩ (by decide)

/-- C3 (counterexample): the defensive check of `get_user_by_username` is
a Python substring test, not an equality test: with the stored username
field `malice` and lookup key `alice`, the stored field differs
from the key yet the record is returned instead of failing. -/
theorem get_user_returns_on_substring_cex :
    ("malice" ≠ "alice") ∧
    (get_user_by_username stC3 "alice").1 =
      .ok ⟨"malice", "m@e.c", "h", "tok"⟩ :=
  ⟨by decide, rfl⟩

/-- C3 (amended): for every store state holding a User document under the
lookup key, `get_user_by_username` fails with `AuthFailure` exactly when
the lookup key is not a substring of the stored username field, and
returns the record whenever the key occurs as a substring (in particular
when the two are equal). -/
theorem get_user_substring_check (st : Store) (u : String) (rec : UserRec)
    (hu : storeGet st (user_id u) = some (Value.user rec)) :
    (pyInStr u rec.username = false →
      (get_user_by_username st u).1 = .error .invalidAuthLogin) ∧
    (pyInStr u rec.username = true →
      (get_user_by_username st u).1 = .ok rec) := by
  constructor
  · intro hin; simp [get_user_by_username, hu, hin]
  · intro hin; simp [get_user_by_username, hu, hin]

/-- C3 (witness): lookup key `bob` over a document whose username field
is `alice` fails with `AuthFailure`. -/
theorem get_user_substring_check_witness :
    (get_user_by_username stW3 "bob").1 = .error .invalidAuthLogin :=
  (get_user_substring_check stW3 "bob" ⟨"alice", "e", "h", "t"⟩ rfl).1 rfl

/-- C4 (counterexample): the email `a@b.@` matches the literal shape
from the spec (non-`@` local part, `@`, non-`@` block, a dot, and at least one
trailing character), yet `validate_registration` rejects it with
`InvalidEmail`, because the regex in the code additionally requires the first
character after the dot to be a non-`@` character. -/
theorem email_spec_shape_rejected_cex :
    EmailShapeSpec (String.toList "a@b.@") ∧
    (validate_registration storeEmpty "alice" "a@b.@").1 =
      .error .invalidRegistrationEmail := by
  constructor
  · refine ⟨['a'], ['b'], ['@'], by decide, by decide, by decide, by decide,
      ?_, ?_⟩
    · unfold NoAt; decide
    · unfold NoAt; decide
  · rfl

/-- C4 (amended): for a username passing the alphabetic check,
`validate_registration` fails with `InvalidEmail` exactly when the email
does not decompose as a non-empty `@`-free local part, `@`, a non-empty
`@`-free block, a literal dot, one non-`@` character, and then arbitrary
trailing characters (`re.match` applies the regex as a prefix match, so
trailing characters after the first post-dot character are
unconstrained). -/
theorem validate_email_iff_shape (st : Store) (u e : String)
    (h : pyIsAlpha u = true) :
    ((validate_registration st u e).1 = .error .invalidRegistrationEmail ↔
      ¬ EmailShape e.toList) := by
  have hpair : (validate_registration st u e).1 =
      .error .invalidRegistrationEmail ↔ emailMatch e = false := by
    unfold validate_registration
    split_ifs with h1 h2 h3
    all_goals simp_all
  rw [hpair, ← emailMatch_iff_emailShape]
  constructor
  · intro hf hT; rw [hT] at hf; exact Bool.noConfusion hf
  · intro hn
    cases hq : emailMatch e with
    | false => rfl
    | true => exact absurd hq hn

/-- C4 (witness): the email `nodot` is rejected, hence (by the amended
equivalence) it admits no such decomposition. -/
theorem validate_email_iff_shape_witness :
    ¬ EmailShape (String.toList "nodot") :=
  (validate_email_iff_shape storeEmpty "alice" "nodot" (by decide)).mp rfl

/-- C5: with a malformed stored password hash, `get_auth_token` does not
fail with `AuthFailure`: the `ValueError` of the hasher propagates uncaught
out of the operation (`_is_password_valid` and `get_auth_token` have no
exception handler), i.e. the code crashes where the spec requires an
`AuthFailure`. -/
theorem get_auth_token_malformed_hash_crash :
    (get_auth_token stC5 "alice" "pw").1 = .error .valueError ∧
    (get_auth_token stC5 "alice" "pw").1 ≠ .error .invalidAuthLogin :=
  ⟨by decide, by decide⟩

/-- C6 (counterexample): with the configured secret equal to the empty
string and the same empty secret supplied, `register` does not create the
User directly: Python truthiness of `auto_hash` sends it down the pending
path, creating a PendingRegistration and sending the confirmation-link
notification. -/
theorem register_empty_secret_cex :
    cfg6.autoRegisterToken = some "" ∧
    (register cfg6 storeEmpty "bob" "pw" "b@e.c" (some "") "s" "rt" "tk").1 =
      .ok () ∧
    storeGet (register cfg6 storeEmpty "bob" "pw" "b@e.c" (some "") "s" "rt"
      "tk").2.1 (user_id "bob") = none ∧
    (storeGet (register cfg6 storeEmpty "bob" "pw" "b@e.c" (some "") "s" "rt"
      "tk").2.1 (registration_id "rt")).isSome = true ∧
    (register cfg6 storeEmpty "bob" "pw" "b@e.c" (some "") "s" "rt" "tk").2.2 =
      [Ev.get (user_id "bob"),
       Ev.setex (registration_id "rt")
         (Value.reg ⟨"bob", "b@e.c", bcryptHashpw "pw" "s"⟩) 1,
       Ev.send "b@e.c" welcomeSubject (welcomeBody cfg6 "rt")] :=
  ⟨rfl, rfl, rfl, rfl, rfl⟩

/-- C6 (amended): for every input passing validation, supplying a
NON-EMPTY `autoRegisterSecret` equal to the configured secret makes
`register` create the User record directly: the User document is written,
no `registration:` key changes, and the only notification sent is the
token-delivery mail of `_save_user` (no `setex`, no confirmation link). -/
theorem register_auto_direct (cfg : Config) (st : Store)
    (u p e secret s rt tk : String)
    (hv : (validate_registration st u e).1 = .ok ())
    (hs : secret ≠ "")
    (hc : cfg.autoRegisterToken = some secret) :
    (register cfg st u p e (some secret) s rt tk).1 = .ok () ∧
    storeGet (register cfg st u p e (some secret) s rt tk).2.1 (user_id u) =
      some (Value.user ⟨u, e, bcryptHashpw p s, tk⟩) ∧
    (∀ t, storeGet (register cfg st u p e (some secret) s rt tk).2.1
        (registration_id t) = storeGet st (registration_id t)) ∧
    (register cfg st u p e (some secret) s rt tk).2.2 =
      [Ev.get (user_id u),
       Ev.setv (user_id u) (Value.user ⟨u, e, bcryptHashpw p s, tk⟩),
       Ev.setv (token_id tk) (Value.str u),
       Ev.send e confirmedSubject (confirmedBody u tk)] := by
  have hauto : autoFlag cfg (some secret) = true := by
    simp [autoFlag, hs, hc]
  have hvp := validate_registration_ok_pair st u e hv
  have hreg : register cfg st u p e (some secret) s rt tk =
      (.ok (), (save_user st u (bcryptHashpw p s) e tk).1,
        Ev.get (user_id u) :: (save_user st u (bcryptHashpw p s) e tk).2.1) := by
    unfold register
    rw [hvp]
    simp [hauto]
  rw [hreg]
  refine ⟨rfl, ?_, ?_, rfl⟩
  · rw [save_user_fst,
      storeGet_storeSet_ne _ (user_id u) (token_id tk) _ (key_user_ne_auth u tk),
      storeGet_storeSet_self]
  · intro t
    rw [save_user_fst,
      storeGet_storeSet_ne _ (registration_id t) (token_id tk) _
        (fun hh => nomatch hh),
      storeGet_storeSet_ne _ (registration_id t) (user_id u) _
        (fun hh => nomatch hh)]

/-- C6 (witness): concrete auto-registration with secret `sec`. -/
theorem register_auto_direct_witness :
    (register cfgW storeEmpty "bob" "pw" "b@e.c" (some "sec") "sw" "rw"
      "tkw").1 = .ok () ∧
    storeGet (register cfgW storeEmpty "bob" "pw" "b@e.c" (some "sec") "sw"
      "rw" "tkw").2.1 (user_id "bob") =
      some (Value.user ⟨"bob", "b@e.c", bcryptHashpw "pw" "sw", "tkw"⟩) := by
  have h := register_auto_direct cfgW storeEmpty "bob" "pw" "b@e.c" "sec"
    "sw" "rw" "tkw" rfl (by decide) rfl
  exact ⟨h.1, h.2.1⟩

/-- C7 (counterexample): the empty username is (vacuously) composed
entirely of alphabetic characters, yet `validate_registration` rejects it
with `InvalidUsername`, because Python `isalpha` is false on the empty
string. -/
theorem validate_empty_username_cex :
    ("".toList.all Char.isAlpha = true) ∧
    (validate_registration storeEmpty "" "a@b.c").1 =
      .error .invalidRegistrationUsername :=
  ⟨by decide, rfl⟩

/-- C7 (amended): any username containing a non-alphabetic character
fails with `InvalidUsername`, and any NON-EMPTY username composed
entirely of alphabetic characters passes the username check (the empty
username also fails with `InvalidUsername`). -/
theorem validate_username_alpha (st : Store) (u e : String) :
    ((∃ c, c ∈ u.toList ∧ c.isAlpha = false) →
      (validate_registration st u e).1 = .error .invalidRegistrationUsername) ∧
    (u.toList ≠ [] → (∀ c ∈ u.toList, c.isAlpha = true) →
      (validate_registration st u e).1 ≠ .error .invalidRegistrationUsername) := by
  constructor
  · rintro ⟨c, hc, hca⟩
    have hall : u.toList.all Char.isAlpha = false := by
      cases hq : u.toList.all Char.isAlpha with
      | false => rfl
      | true =>
        have h1 := List.all_eq_true.mp hq c hc
        rw [hca] at h1
        exact Bool.noConfusion h1
    have halpha : pyIsAlpha u = false := by
      unfold pyIsAlpha
      rw [hall]
      simp
    simp [validate_registration, halpha]
  · intro hne hall
    have halpha : pyIsAlpha u = true := by
      have h1 : u.toList.isEmpty = false := by
        cases hq : u.toList with
        | nil => exact absurd hq hne
        | cons a l => rfl
      have h2 : u.toList.all Char.isAlpha = true := List.all_eq_true.mpr hall
      unfold pyIsAlpha
      rw [h1, h2]
      rfl
    unfold validate_registration
    split_ifs with h1 h2 h3
    all_goals simp_all

/-- C7 (witness): username `abc1` contains the digit `1` and is rejected
with `InvalidUsername`. -/
theorem validate_username_alpha_witness :
    (validate_registration storeEmpty "abc1" "a@b.c").1 =
      .error .invalidRegistrationUsername :=
  (validate_username_alpha storeEmpty "abc1" "a@b.c").1
    ⟨'1', by decide, by decide⟩

/-- C8: in every non-auto execution of `register` that passes validation,
the operation succeeds, its collaborator trace is exactly the store read
of validation, then the `setex` persisting the PendingRegistration with
its 1-day expiry, then the Notifier call carrying the confirmation link -
so the pending record is durably persisted strictly before the Notifier
is invoked - and the resulting store holds the pending record. -/
theorem register_persist_before_notify (cfg : Config) (st : Store)
    (u p e : String) (ah : Option String) (s rt tk : String)
    (hv : (validate_registration st u e).1 = .ok ())
    (ha : autoFlag cfg ah = false) :
    (register cfg st u p e ah s rt tk).1 = .ok () ∧
    (register cfg st u p e ah s rt tk).2.2 =
      [Ev.get (user_id u),
       Ev.setex (registration_id rt) (Value.reg ⟨u, e, bcryptHashpw p s⟩) 1,
       Ev.send e welcomeSubject (welcomeBody cfg rt)] ∧
    storeGet (register cfg st u p e ah s rt tk).2.1 (registration_id rt) =
      some (Value.reg ⟨u, e, bcryptHashpw p s⟩) := by
  have hvp := validate_registration_ok_pair st u e hv
  have hreg : register cfg st u p e ah s rt tk =
      (.ok (), (save_registration st u (bcryptHashpw p s) e rt).1,
        [Ev.get (user_id u),
         Ev.setex (registration_id rt) (Value.reg ⟨u, e, bcryptHashpw p s⟩) 1,
         Ev.send e welcomeSubject (welcomeBody cfg rt)]) := by
    unfold register
    rw [hvp]
    simp [ha, save_registration]
  rw [hreg]
  exact ⟨rfl, rfl, by rw [save_registration_fst, storeGet_storeSet_self]⟩

/-- C8 (witness): concrete non-auto registration of `alice`. -/
theorem register_persist_before_notify_witness :
    (register cfgC storeEmpty "alice" "pw" "a@b.c" none "sz" "rz" "tz").2.2 =
      [Ev.get (user_id "alice"),
       Ev.setex (registration_id "rz")
         (Value.reg ⟨"alice", "a@b.c", bcryptHashpw "pw" "sz"⟩) 1,
       Ev.send "a@b.c" welcomeSubject (welcomeBody cfgC "rz")] :=
  (register_persist_before_notify cfgC storeEmpty "alice" "pw" "a@b.c" none
    "sz" "rz" "tz" rfl rfl).2.1

/-- C9: for every store holding a User document under the lookup key, a
`get_auth_token` call whose password does not verify against the stored
hash fails with `AuthFailure`, returns the store unchanged, performs no
store-write collaborator call, and in particular leaves the stored
document (with its password hash) intact. -/
theorem get_auth_token_wrong_password (st : Store) (u pw : String)
    (rec : UserRec)
    (hu : storeGet st (user_id u) = some (Value.user rec))
    (hpw : bcryptCheckpw pw rec.password = .ok false) :
    (get_auth_token st u pw).1 = .error .invalidAuthLogin ∧
    (get_auth_token st u pw).2.1 = st ∧
    (get_auth_token st u pw).2.2.all (fun ev => !writeEv ev) = true ∧
    storeGet (get_auth_token st u pw).2.1 (user_id u) =
      some (Value.user rec) := by
  by_cases hin : pyInStr u rec.username = true
  · have hg : get_user_by_username st u =
        (.ok rec, [Ev.existsKey (user_id u), Ev.get (user_id u)]) := by
      simp [get_user_by_username, hu, hin]
    have hres : get_auth_token st u pw =
        (.error .invalidAuthLogin, st,
          [Ev.existsKey (user_id u), Ev.get (user_id u)]) := by
      unfold get_auth_token
      rw [hg]
      simp [hpw]
    rw [hres]
    exact ⟨rfl, rfl, rfl, hu⟩
  · have hinf : pyInStr u rec.username = false := by
      cases hq : pyInStr u rec.username with
      | false => rfl
      | true => exact absurd hq hin
    have hres : get_auth_token st u pw =
        (.error .invalidAuthLogin, st,
          [Ev.existsKey (user_id u), Ev.get (user_id u)]) := by
      unfold get_auth_token
      simp [get_user_by_username, hu, hinf]
    rw [hres]
    exact ⟨rfl, rfl, rfl, hu⟩

/-- C9 (witness): wrong password against the stored hash of `alice`. -/
theorem get_auth_token_wrong_password_witness :
    (get_auth_token stW9 "alice" "wrong").1 = .error .invalidAuthLogin :=
  (get_auth_token_wrong_password stW9 "alice" "wrong"
    ⟨"alice", "a@b.c", bcryptHashpw "right" "ss", "tok9"⟩ rfl rfl).1

/-- C10: `validate_registration` checks in a fixed order - username, then
email, then the user-existence read. If the username check fails the call
returns `InvalidUsername` with an empty collaborator trace (no store read
at all), whatever the email; if the username passes and the email check
fails it returns `InvalidEmail`, again with no store read; only when both
pass is the single `user:` read performed. -/
theorem validate_registration_precedence (st : Store) (u e : String) :
    (pyIsAlpha u = false →
      validate_registration st u e = (.error .invalidRegistrationUsername, [])) ∧
    (pyIsAlpha u = true → emailMatch e = false →
      validate_registration st u e = (.error .invalidRegistrationEmail, [])) ∧
    (pyIsAlpha u = true → emailMatch e = true →
      (validate_registration st u e).2 = [Ev.get (user_id u)]) := by
  refine ⟨?_, ?_, ?_⟩
  · intro h1; simp [validate_registration, h1]
  · intro h1 h2; simp [validate_registration, h1, h2]
  · intro h1 h2
    unfold validate_registration
    simp only [h1, h2]
    split_ifs <;> simp_all

/-- C10 (witness): username `a1` and email `nodot` are both invalid;
`InvalidUsername` wins and no store read happens. -/
theorem validate_registration_precedence_witness :
    validate_registration storeEmpty "a1" "nodot" =
      (.error .invalidRegistrationUsername, []) :=
  (validate_registration_precedence storeEmpty "a1" "nodot").1 (by decide)

end Megachess
